import Mathlib

/-!
Verification of the consensus engine of a crowdsourced DPI-circumvention
strategy server, shallowly embedded from the Python source (`config.py`,
`db.py`, `main.py`, `models.py`): the status state machine, configuration
fingerprinting, ranking/fallback selection, rate limiting, atomic report
recording, and the maintenance sweeper.

Modeling conventions:
* Python `float` arithmetic on vote rates is modeled as exact rational
  arithmetic over `ℚ`.
* Python strings inside configurations are modeled as their character
  sequences (`List Char`); identifier-valued columns that are only
  compared for equality stay `String`.
* Timestamps (`NOW()`, `reported_at`, `last_confirmed`) are integers
  counting seconds; a SQL `NULL` timestamp is `Option.none`.
* The SHA-256 digest in `compute_strategy_hash` is modeled as the
  pre-digest canonical string (equal inputs give equal digests; the
  digest itself is treated as injective — the collision-resistance
  abstraction).
-/

namespace Crowd

/-- Strategy status, as stored in the `status` column of `strategies`. -/
inductive Status where
  | unconfirmed
  | verified
  | degraded
  | stale
deriving DecidableEq, Repr

/-! ### Configuration constants (`config.py`) -/

/-- `MAX_REPORTS_PER_HOUR` (default environment value 10). -/
def MAX_REPORTS_PER_HOUR : ℕ := 10

/-- `MIN_VOTES_VERIFIED = 5`. -/
def MIN_VOTES_VERIFIED : ℕ := 5

/-- `VERIFIED_RATE_THRESHOLD = 0.60`. -/
def VERIFIED_RATE_THRESHOLD : ℚ := 60 / 100

/-- `STALE_RATE_THRESHOLD = 0.40`. -/
def STALE_RATE_THRESHOLD : ℚ := 40 / 100

/-- `STALE_DAYS = 7`. -/
def STALE_DAYS : ℕ := 7

/-- `MAX_STRATEGIES_RESPONSE = 5`. -/
def MAX_STRATEGIES_RESPONSE : ℕ := 5

/-- `MIN_PROVIDER_STRATEGIES = 3`. -/
def MIN_PROVIDER_STRATEGIES : ℕ := 3

/-- `FALLBACK_SUCCESS_RATE = 0.70`. -/
def FALLBACK_SUCCESS_RATE : ℚ := 70 / 100

/-! ### Status state machine (`db.py`, `_compute_status`) -/

/-- `_compute_status(success_count, fail_count)` from `db.py`:
`total < MIN_VOTES_VERIFIED` gives `unconfirmed`; otherwise
`rate = success_count / total`, `rate >= 0.60` gives `verified`,
`rate < 0.40` gives `stale`, and anything in between `unconfirmed`. -/
def computeStatus (success_count fail_count : ℕ) : Status :=
  let total := success_count + fail_count
  if total < MIN_VOTES_VERIFIED then .unconfirmed
  else
    let rate : ℚ := (success_count : ℚ) / (total : ℚ)
    if VERIFIED_RATE_THRESHOLD ≤ rate then .verified
    else if rate < STALE_RATE_THRESHOLD then .stale
    else .unconfirmed

/-! ### Fingerprinting (`db.py`, `compute_strategy_hash`) -/

/-- A Python string, modeled as its sequence of characters. -/
abbrev PyStr := List Char

/-- Python `str.strip()`: drop leading and trailing whitespace. -/
def pyStrip (s : PyStr) : PyStr :=
  ((s.dropWhile Char.isWhitespace).reverse.dropWhile Char.isWhitespace).reverse

/-- Python `str.lower()`: lower-case each character. -/
def pyLower (s : PyStr) : PyStr := s.map Char.toLower

/-- Python string comparison, as used by `sorted`: lexicographic by code
point. -/
def lexLe : PyStr → PyStr → Bool
  | [], _ => true
  | _ :: _, [] => false
  | a :: as, b :: bs =>
    if a < b then true else if b < a then false else lexLe as bs

/-- The generator expression in `compute_strategy_hash`:
`(arg.strip().lower() for arg in zapret_args if arg.strip())` — discard
entries that strip to nothing, strip and lower-case the rest. -/
def normalizeConfig (zapret_args : List PyStr) : List PyStr :=
  zapret_args.filterMap fun a =>
    if pyStrip a = [] then none else some (pyLower (pyStrip a))

/-- `compute_strategy_hash(zapret_args)`: sort the normalized arguments,
join with `"|"` and digest. The SHA-256 digest is modeled as the pre-digest
joined string itself (equal inputs give equal digests, and the digest is
treated as injective — the collision-resistance abstraction). -/
def computeStrategyHash (zapret_args : List PyStr) : PyStr :=
  List.intercalate ['|'] ((normalizeConfig zapret_args).mergeSort lexLe)

/-! ### Consensus store data model -/

/-- One row of the `strategies` relation (the columns used by `db.py`).
Timestamps are integer seconds; a SQL `NULL` `last_confirmed` is `none`. -/
structure Strategy where
  id : ℕ
  provider_id : String
  service_id : String
  strategy_hash : PyStr
  zapret_args : List PyStr
  success_count : ℕ
  fail_count : ℕ
  avg_latency_ms : ℚ
  status : Status
  first_reported : ℤ
  last_confirmed : Option ℤ
deriving DecidableEq, Repr

/-- One row of the append-only `reports` relation. -/
structure Report where
  strategy_id : ℕ
  fingerprint : String
  success : Bool
  latency_ms : ℚ
  client_version : String
  reported_at : ℤ
deriving DecidableEq, Repr

/-- The persistent state: both relations plus the `id` sequence of
`strategies`. -/
structure Store where
  strategies : List Strategy
  reports : List Report
  nextId : ℕ
deriving DecidableEq, Repr

/-- The SQL computed column
`CASE WHEN (success_count + fail_count) > 0 THEN success_count::float /
(success_count + fail_count) ELSE 0 END`, with float division modeled as
exact rational division. -/
def successRate (r : Strategy) : ℚ :=
  if r.success_count + r.fail_count > 0 then
    (r.success_count : ℚ) / ((r.success_count : ℚ) + (r.fail_count : ℚ))
  else 0

/-- The `ON CONFLICT (provider_id, service_id, strategy_hash)` key. -/
def keyMatch (provider service : String) (hash : PyStr) (r : Strategy) : Bool :=
  r.provider_id == provider && r.service_id == service && r.strategy_hash == hash

/-! ### Atomic report recording (`db.py`, `upsert_strategy`) -/

/-- The `RETURNING id, success_count, fail_count` projection. -/
structure UpsertRow where
  id : ℕ
  success_count : ℕ
  fail_count : ℕ
deriving DecidableEq, Repr

/-- Statement 1 of `upsert_strategy`: `INSERT ... ON CONFLICT ... DO UPDATE
... RETURNING id, success_count, fail_count`. A successful report inserts
counts `(1, 0)` with `last_confirmed = NOW()` or increments
`success_count`, folds the latency into the running mean and advances
`last_confirmed`; a failed report inserts counts `(0, 1)` with no
`last_confirmed` or increments `fail_count` only. -/
def stepUpsert (st : Store) (provider service : String) (args : List PyStr)
    (success : Bool) (latency : ℚ) (now : ℤ) : Store × UpsertRow :=
  let hash := computeStrategyHash args
  match st.strategies.find? (keyMatch provider service hash) with
  | some row =>
    let row' :=
      if success then
        { row with
          success_count := row.success_count + 1
          avg_latency_ms :=
            (row.avg_latency_ms * (row.success_count : ℚ) + latency)
              / ((row.success_count : ℚ) + 1)
          last_confirmed := some now }
      else { row with fail_count := row.fail_count + 1 }
    ({ st with strategies :=
        st.strategies.map fun r =>
          if keyMatch provider service hash r then row' else r },
     ⟨row.id, row'.success_count, row'.fail_count⟩)
  | none =>
    let row : Strategy :=
      if success then
        { id := st.nextId, provider_id := provider, service_id := service,
          strategy_hash := hash, zapret_args := args,
          success_count := 1, fail_count := 0, avg_latency_ms := latency,
          status := .unconfirmed, first_reported := now,
          last_confirmed := some now }
      else
        { id := st.nextId, provider_id := provider, service_id := service,
          strategy_hash := hash, zapret_args := args,
          success_count := 0, fail_count := 1, avg_latency_ms := 0,
          status := .unconfirmed, first_reported := now,
          last_confirmed := none }
    ({ st with strategies := st.strategies ++ [row], nextId := st.nextId + 1 },
     ⟨row.id, row.success_count, row.fail_count⟩)

/-- Statement 2 of `upsert_strategy`:
`UPDATE strategies SET status = $1 WHERE id = $2`. -/
def stepSetStatus (st : Store) (sid : ℕ) (newStatus : Status) : Store :=
  { st with strategies := st.strategies.map fun r =>
      if r.id == sid then { r with status := newStatus } else r }

/-- Statement 3 of `upsert_strategy`: `INSERT INTO reports ...`. -/
def stepInsertReport (st : Store) (sid : ℕ) (fingerprint : String)
    (success : Bool) (latency : ℚ) (client_version : String) (now : ℤ) :
    Store :=
  { st with reports := st.reports ++
      [⟨sid, fingerprint, success, latency, client_version, now⟩] }

/-- `upsert_strategy`: the three statements applied in order, plus the
status recomputation from the post-increment counts. -/
def upsertStrategy (st : Store) (provider service : String) (args : List PyStr)
    (success : Bool) (latency : ℚ) (fingerprint client_version : String)
    (now : ℤ) : Store × ℕ × Status :=
  let res := stepUpsert st provider service args success latency now
  let newStatus := computeStatus res.2.success_count res.2.fail_count
  let st2 := stepSetStatus res.1 res.2.id newStatus
  let st3 := stepInsertReport st2 res.2.id fingerprint success latency
    client_version now
  (st3, res.2.id, newStatus)

/-- One transaction attempt of `upsert_strategy` where each of the three
SQL statements may fail (`failOne`, `failTwo`, `failThree`): a failing
statement raises, aborting the `async with conn.transaction()` block, so
no later statement runs and `none` is returned. -/
def recordReportTx (st : Store) (provider service : String)
    (args : List PyStr) (success : Bool) (latency : ℚ)
    (fingerprint client_version : String) (now : ℤ)
    (failOne failTwo failThree : Bool) : Option (Store × ℕ × Status) :=
  if failOne then none else
  let res := stepUpsert st provider service args success latency now
  let newStatus := computeStatus res.2.success_count res.2.fail_count
  if failTwo then none else
  let st2 := stepSetStatus res.1 res.2.id newStatus
  if failThree then none else
  some (stepInsertReport st2 res.2.id fingerprint success latency
    client_version now, res.2.id, newStatus)

/-- The transaction semantics of `async with conn.transaction()`: on an
exception everything rolls back and the store is unchanged; on success the
new store commits. -/
def recordReport (st : Store) (provider service : String)
    (args : List PyStr) (success : Bool) (latency : ℚ)
    (fingerprint client_version : String) (now : ℤ)
    (failOne failTwo failThree : Bool) : Store × Option (ℕ × Status) :=
  match recordReportTx st provider service args success latency fingerprint
    client_version now failOne failTwo failThree with
  | some (st', sid, stat) => (st', some (sid, stat))
  | none => (st, none)

/-! ### Rate limiter (`db.py`, `check_rate_limit`; `main.py`, `post_report`) -/

/-- `check_rate_limit(fingerprint)`: count the reports of this fingerprint
with `reported_at > NOW() - INTERVAL '1 hour'` and allow iff the count is
strictly below `MAX_REPORTS_PER_HOUR`. -/
def checkRateLimit (st : Store) (fingerprint : String) (now : ℤ) : Bool :=
  (st.reports.filter fun r =>
      r.fingerprint == fingerprint && decide (now - 3600 < r.reported_at)).length
    < MAX_REPORTS_PER_HOUR

/-- The `post_report` handler gate in `main.py`: a report is answered with
HTTP 429 iff `check_rate_limit` returns false, otherwise the upsert runs. -/
def postReport (st : Store) (provider service : String) (args : List PyStr)
    (success : Bool) (latency : ℚ) (fingerprint client_version : String)
    (now : ℤ) : Except ℕ (Store × ℕ × Status) :=
  if checkRateLimit st fingerprint now then
    .ok (upsertStrategy st provider service args success latency fingerprint
      client_version now)
  else .error 429

/-! ### Ranking and fallback (`db.py`, `get_strategies`) -/

/-- `status IN ('verified', 'unconfirmed')`. -/
def statusOk (r : Strategy) : Bool :=
  r.status == .verified || r.status == .unconfirmed

/-- `ORDER BY ... last_confirmed DESC` on a nullable column: PostgreSQL
sorts `NULL` first on a descending key, so `none` ranks above every
timestamp and later timestamps rank above earlier ones. -/
def lcGE : Option ℤ → Option ℤ → Bool
  | none, _ => true
  | some _, none => false
  | some x, some y => decide (y ≤ x)

/-- `ORDER BY success_rate DESC, last_confirmed DESC` as a total Boolean
comparison. -/
def rankLe (a b : Strategy) : Bool :=
  if successRate b < successRate a then true
  else if successRate a < successRate b then false
  else lcGE a.last_confirmed b.last_confirmed

/-- The primary query of `get_strategies`: exact `(provider, service)`,
status verified or unconfirmed, ordered, `LIMIT MAX_STRATEGIES_RESPONSE`. -/
def primaryStrategies (st : Store) (provider service : String) :
    List Strategy :=
  ((st.strategies.filter fun r =>
      r.provider_id == provider && r.service_id == service && statusOk r).mergeSort
    rankLe).take MAX_STRATEGIES_RESPONSE

/-- The fallback query of `get_strategies`: same service, any other
provider, status verified, success rate at least `FALLBACK_SUCCESS_RATE`,
same ordering, `LIMIT limit`. -/
def fallbackRows (st : Store) (provider service : String) (limit : ℕ) :
    List Strategy :=
  ((st.strategies.filter fun r =>
      r.service_id == service && r.provider_id != provider &&
      r.status == .verified &&
      decide (FALLBACK_SUCCESS_RATE ≤ successRate r)).mergeSort
    rankLe).take limit

/-- `get_strategies(provider_id, service_id)`: primary query, then — when
fewer than `MIN_PROVIDER_STRATEGIES` rows — fallback rows whose id is not
already present, and a final cap at `MAX_STRATEGIES_RESPONSE`. -/
def getStrategies (st : Store) (provider service : String) : List Strategy :=
  let results := primaryStrategies st provider service
  let results :=
    if results.length < MIN_PROVIDER_STRATEGIES then
      let existing := results.map (·.id)
      results ++ (fallbackRows st provider service
          (MAX_STRATEGIES_RESPONSE - results.length)).filter
        (fun r => !(existing.contains r.id))
    else results
  results.take MAX_STRATEGIES_RESPONSE

/-! ### Maintenance sweeper (`db.py`, `run_cleanup`) -/

/-- The age-based rule's row condition:
`last_confirmed < NOW() - INTERVAL '7 days' AND status NOT IN ('stale')`.
The SQL comparison is false on a `NULL` `last_confirmed`. -/
def staleCond (now : ℤ) (r : Strategy) : Bool :=
  (match r.last_confirmed with
   | some t => decide (t < now - (STALE_DAYS : ℤ) * 86400)
   | none => false) && !(r.status == .stale)

/-- Row effect of the age-based `UPDATE ... SET status = 'stale'`. -/
def markStale (now : ℤ) (r : Strategy) : Strategy :=
  if staleCond now r then { r with status := .stale } else r

/-- The rate-based rule's row condition:
`(success_count + fail_count) >= MIN_VOTES_VERIFIED AND
success_count::float / (success_count + fail_count) <
STALE_RATE_THRESHOLD AND status NOT IN ('stale', 'degraded')`. -/
def degradedCond (r : Strategy) : Bool :=
  decide (MIN_VOTES_VERIFIED ≤ r.success_count + r.fail_count) &&
  decide ((r.success_count : ℚ) / ((r.success_count : ℚ) + (r.fail_count : ℚ))
    < STALE_RATE_THRESHOLD) &&
  !(r.status == .stale) && !(r.status == .degraded)

/-- Row effect of the rate-based `UPDATE ... SET status = 'degraded'`. -/
def markDegraded (r : Strategy) : Strategy :=
  if degradedCond r then { r with status := .degraded } else r

/-- `run_cleanup()`: the age-based bulk update, then the rate-based bulk
update, returning the two affected-row counts. -/
def runCleanup (st : Store) (now : ℤ) : Store × ℕ × ℕ :=
  let afterStale := st.strategies.map (markStale now)
  let staleCount := st.strategies.countP (staleCond now)
  let afterDegraded := afterStale.map markDegraded
  let degradedCount := afterStale.countP degradedCond
  ({ st with strategies := afterDegraded }, staleCount, degradedCount)

/-! ### Helper lemmas -/

/-- Case analysis of `computeStatus` against the spec's transition rules. -/
lemma computeStatus_cases (s f : ℕ) :
    (s + f < 5 → computeStatus s f = .unconfirmed) ∧
    (5 ≤ s + f →
      (((60 : ℚ) / 100 ≤ (s : ℚ) / ((s : ℚ) + (f : ℚ)) →
          computeStatus s f = .verified) ∧
       ((s : ℚ) / ((s : ℚ) + (f : ℚ)) < (40 : ℚ) / 100 →
          computeStatus s f = .stale) ∧
       ((40 : ℚ) / 100 ≤ (s : ℚ) / ((s : ℚ) + (f : ℚ)) →
          (s : ℚ) / ((s : ℚ) + (f : ℚ)) < (60 : ℚ) / 100 →
          computeStatus s f = .unconfirmed))) := by
  have hcast : ((s + f : ℕ) : ℚ) = (s : ℚ) + (f : ℚ) := by push_cast; ring
  constructor
  · intro h
    simp only [computeStatus, MIN_VOTES_VERIFIED]
    rw [if_pos h]
  · intro h
    have hnot : ¬ s + f < MIN_VOTES_VERIFIED := by
      simp only [MIN_VOTES_VERIFIED]; omega
    refine ⟨?_, ?_, ?_⟩
    · intro hr
      simp only [computeStatus, VERIFIED_RATE_THRESHOLD]
      rw [if_neg hnot, if_pos (by rw [hcast]; exact hr)]
    · intro hr
      simp only [computeStatus]
      have h1 : ¬ VERIFIED_RATE_THRESHOLD ≤ (s : ℚ) / ((s + f : ℕ) : ℚ) := by
        rw [hcast]
        simp only [VERIFIED_RATE_THRESHOLD]
        intro hle
        linarith
      have h2 : (s : ℚ) / ((s + f : ℕ) : ℚ) < STALE_RATE_THRESHOLD := by
        rw [hcast]; simpa only [STALE_RATE_THRESHOLD] using hr
      rw [if_neg hnot, if_neg h1, if_pos h2]
    · intro hr1 hr2
      simp only [computeStatus]
      have h1 : ¬ VERIFIED_RATE_THRESHOLD ≤ (s : ℚ) / ((s + f : ℕ) : ℚ) := by
        rw [hcast]; simp only [VERIFIED_RATE_THRESHOLD]; linarith
      have h2 : ¬ (s : ℚ) / ((s + f : ℕ) : ℚ) < STALE_RATE_THRESHOLD := by
        rw [hcast]; simp only [STALE_RATE_THRESHOLD]; linarith
      rw [if_neg hnot, if_neg h1, if_neg h2]

lemma lexLe_total : ∀ (a b : PyStr), (lexLe a b || lexLe b a) = true
  | [], b => by simp [lexLe]
  | a :: as, [] => by simp [lexLe]
  | a :: as, b :: bs => by
    simp only [lexLe]
    rcases lt_trichotomy a b with h | h | h
    · rw [if_pos h]; simp
    · subst h
      rw [if_neg (lt_irrefl a), if_neg (lt_irrefl a), if_neg (lt_irrefl a),
        if_neg (lt_irrefl a)]
      exact lexLe_total as bs
    · rw [if_neg (lt_asymm h), if_pos h, if_pos h]; simp

lemma lexLe_trans :
    ∀ (a b c : PyStr), lexLe a b = true → lexLe b c = true → lexLe a c = true
  | [], _, _, _, _ => by simp [lexLe]
  | a :: as, [], c, h1, _ => by simp [lexLe] at h1
  | a :: as, b :: bs, [], _, h2 => by simp [lexLe] at h2
  | a :: as, b :: bs, c :: cs, h1, h2 => by
    simp only [lexLe] at h1 h2 ⊢
    rcases lt_trichotomy a b with hab | hab | hab
    · rcases lt_trichotomy b c with hbc | hbc | hbc
      · rw [if_pos (lt_trans hab hbc)]
      · subst hbc; rw [if_pos hab]
      · rw [if_neg (lt_asymm hbc), if_pos hbc] at h2; simp at h2
    · subst hab
      rcases lt_trichotomy a c with hac | hac | hac
      · rw [if_pos hac]
      · subst hac
        rw [if_neg (lt_irrefl a), if_neg (lt_irrefl a)] at h1 h2 ⊢
        exact lexLe_trans as bs cs h1 h2
      · rw [if_neg (lt_asymm hac), if_pos hac] at h2; simp at h2
    · rw [if_neg (lt_asymm hab), if_pos hab] at h1; simp at h1

lemma lexLe_antisymm :
    ∀ (a b : PyStr), lexLe a b = true → lexLe b a = true → a = b
  | [], [], _, _ => rfl
  | [], _ :: _, _, h2 => by simp [lexLe] at h2
  | _ :: _, [], h1, _ => by simp [lexLe] at h1
  | a :: as, b :: bs, h1, h2 => by
    simp only [lexLe] at h1 h2
    rcases lt_trichotomy a b with hab | hab | hab
    · rw [if_neg (lt_asymm hab), if_pos hab] at h2; simp at h2
    · subst hab
      rw [if_neg (lt_irrefl a), if_neg (lt_irrefl a)] at h1 h2
      rw [lexLe_antisymm as bs h1 h2]
    · rw [if_neg (lt_asymm hab), if_pos hab] at h1; simp at h1

lemma sorted_mergeSort_lexLe (l : List PyStr) :
    (l.mergeSort lexLe).Pairwise (fun a b => lexLe a b = true) :=
  List.sorted_mergeSort (fun a b c hab hbc => lexLe_trans a b c hab hbc)
    (fun a b => lexLe_total a b) l

/-- Sorting by `lexLe` is a canonical form: permuted inputs sort equal. -/
lemma mergeSort_lexLe_canon {l₁ l₂ : List PyStr} (h : List.Perm l₁ l₂) :
    l₁.mergeSort lexLe = l₂.mergeSort lexLe := by
  haveI : IsAntisymm PyStr (fun a b => lexLe a b = true) :=
    ⟨fun a b h1 h2 => lexLe_antisymm a b h1 h2⟩
  exact List.eq_of_perm_of_sorted
    ((List.mergeSort_perm l₁ lexLe).trans (h.trans (List.mergeSort_perm l₂ lexLe).symm))
    (sorted_mergeSort_lexLe l₁) (sorted_mergeSort_lexLe l₂)

/-- Configurations with permuted normalized forms hash identically. -/
lemma computeStrategyHash_congr {A B : List PyStr}
    (h : List.Perm (normalizeConfig A) (normalizeConfig B)) :
    computeStrategyHash A = computeStrategyHash B := by
  unfold computeStrategyHash
  rw [mergeSort_lexLe_canon h]

/-- `find?` commutes with a map that does not change the predicate. -/
lemma find?_map_congr {α : Type} {l : List α} {p : α → Bool} {f : α → α}
    (hpf : ∀ a, p (f a) = p a) :
    (l.map f).find? p = (l.find? p).map f := by
  rw [List.find?_map]
  have hfun : (p ∘ f) = p := funext hpf
  rw [hfun]

/-- Replacing the key-matched rows keeps `find?` pointing at the (new)
matched row. -/
lemma find?_update {l : List Strategy} {p : Strategy → Bool}
    {row row' : Strategy} (h : l.find? p = some row) (hrow' : p row' = true) :
    (l.map fun r => if p r then row' else r).find? p = some row' := by
  have hpf : ∀ r, p (if p r then row' else r) = p r := by
    intro r
    by_cases hr : p r
    · rw [if_pos hr, hrow', hr]
    · rw [if_neg hr]
  rw [find?_map_congr hpf, h, Option.map_some']
  rw [if_pos (List.find?_some h)]

/-- The key predicate ignores the `status` column. -/
lemma keyMatch_set_status (provider service : String) (hash : PyStr)
    (r : Strategy) (x : Status) :
    keyMatch provider service hash { r with status := x } =
      keyMatch provider service hash r := rfl

/-! ### Claim theorems -/

/-- C1: `computeStatus` is total and pure on vote counts: below 5 total
votes the result is `unconfirmed`; otherwise with `rate = s / (s + f)` the
result is `verified` when `rate ≥ 0.60`, `stale` when `rate < 0.40`, and
`unconfirmed` in between; in particular `(4,0)` is `unconfirmed`, `(3,2)`
is `verified`, `(1,4)` is `stale`, and `(2,3)` (rate exactly `0.40`) is
`unconfirmed`. -/
theorem C1_computeStatus_spec (s f : ℕ) :
    (s + f < 5 → computeStatus s f = .unconfirmed) ∧
    (5 ≤ s + f →
      (((60 : ℚ) / 100 ≤ (s : ℚ) / ((s : ℚ) + (f : ℚ)) →
          computeStatus s f = .verified) ∧
       ((s : ℚ) / ((s : ℚ) + (f : ℚ)) < (40 : ℚ) / 100 →
          computeStatus s f = .stale) ∧
       ((40 : ℚ) / 100 ≤ (s : ℚ) / ((s : ℚ) + (f : ℚ)) →
          (s : ℚ) / ((s : ℚ) + (f : ℚ)) < (60 : ℚ) / 100 →
          computeStatus s f = .unconfirmed))) ∧
    (computeStatus 4 0 = .unconfirmed ∧ computeStatus 3 2 = .verified ∧
     computeStatus 1 4 = .stale ∧ computeStatus 2 3 = .unconfirmed) := by
  refine ⟨(computeStatus_cases s f).1, (computeStatus_cases s f).2, ?_, ?_, ?_, ?_⟩
  · exact (computeStatus_cases 4 0).1 (by norm_num)
  · exact ((computeStatus_cases 3 2).2 (by norm_num)).1 (by norm_num)
  · exact ((computeStatus_cases 1 4).2 (by norm_num)).2.1 (by norm_num)
  · exact ((computeStatus_cases 2 3).2 (by norm_num)).2.2
      (by norm_num) (by norm_num)

/-- Witness for C1 at the concrete input `(3, 2)`. -/
theorem C1_computeStatus_spec_witness :
    computeStatus 3 2 = .verified :=
  ((C1_computeStatus_spec 3 2).2.1 (by norm_num)).1 (by norm_num)

/-- C3 counterexample: the configurations `["a|b"]` and `["a", "b"]`
denote different normalized parameter sets, yet produce the same pre-digest
string and hence the same hash — the join separator `'|'` does occur inside
a normalized parameter. Moreover `["a", "a"]` and `["a"]` denote the same
normalized parameter *set* but hash differently, so the claimed
equivalence fails in both directions. -/
theorem C3_hash_set_iff_counterexample :
    computeStrategyHash [['a', '|', 'b']] = computeStrategyHash [['a'], ['b']] ∧
    ['a'] ∈ normalizeConfig [['a'], ['b']] ∧
    ['a'] ∉ normalizeConfig [['a', '|', 'b']] ∧
    (['a', '|', 'b'] : PyStr) ∈ normalizeConfig [['a', '|', 'b']] ∧
    '|' ∈ (['a', '|', 'b'] : PyStr) ∧
    computeStrategyHash [['a'], ['a']] ≠ computeStrategyHash [['a']] ∧
    (normalizeConfig [['a'], ['a']]).toFinset = (normalizeConfig [['a']]).toFinset := by
  have e1 : computeStrategyHash [['a', '|', 'b']] = ['a', '|', 'b'] := by
    unfold computeStrategyHash
    rw [show normalizeConfig [['a', '|', 'b']] = [['a', '|', 'b']] from by decide,
      List.mergeSort_of_sorted (by decide)]
    decide
  have e2 : computeStrategyHash [['a'], ['b']] = ['a', '|', 'b'] := by
    unfold computeStrategyHash
    rw [show normalizeConfig [['a'], ['b']] = [['a'], ['b']] from by decide,
      List.mergeSort_of_sorted (by decide)]
    decide
  have e3 : computeStrategyHash [['a'], ['a']] = ['a', '|', 'a'] := by
    unfold computeStrategyHash
    rw [show normalizeConfig [['a'], ['a']] = [['a'], ['a']] from by decide,
      List.mergeSort_of_sorted (by decide)]
    decide
  have e4 : computeStrategyHash [['a']] = ['a'] := by
    unfold computeStrategyHash
    rw [show normalizeConfig [['a']] = [['a']] from by decide,
      List.mergeSort_of_sorted (by decide)]
    decide
  refine ⟨e1.trans e2.symm, by decide, by decide, by decide, by decide, ?_, by decide⟩
  rw [e3, e4]; decide

/-- C3 (amended): if two configurations denote the same *multiset* of
normalized (stripped, lower-cased, non-empty) parameters then their hashes
are equal; the converse does not hold, since the join separator `'|'` may
occur inside a normalized parameter. -/
theorem C3_hash_eq_of_same_multiset (A B : List PyStr)
    (h : (Multiset.ofList (normalizeConfig A)) = (Multiset.ofList (normalizeConfig B))) :
    computeStrategyHash A = computeStrategyHash B :=
  computeStrategyHash_congr (Multiset.coe_eq_coe.mp h)

/-- Witness for the amended C3: `[" A ", "b"]` and `["b", "a"]` have the
same normalized multiset `{a, b}` and hash identically. -/
theorem C3_hash_eq_of_same_multiset_witness :
    computeStrategyHash [[' ', 'A', ' '], ['b']] = computeStrategyHash [['b'], ['a']] :=
  C3_hash_eq_of_same_multiset [[' ', 'A', ' '], ['b']] [['b'], ['a']] (by decide)

/-- C4: the hash is invariant under (1) any permutation of the parameter
list, (2) replacing each parameter by a variant with the same stripped,
lower-cased form (casing / leading-trailing whitespace changes), and
(3) dropping empty or whitespace-only entries. -/
theorem C4_hash_invariance (A B : List PyStr) (f : PyStr → PyStr) (e : PyStr) :
    (List.Perm A B → computeStrategyHash A = computeStrategyHash B) ∧
    ((∀ a ∈ A, pyLower (pyStrip (f a)) = pyLower (pyStrip a)) →
      computeStrategyHash (A.map f) = computeStrategyHash A) ∧
    (pyStrip e = [] → computeStrategyHash (e :: A) = computeStrategyHash A) := by
  refine ⟨?_, ?_, ?_⟩
  · intro h
    exact computeStrategyHash_congr (List.Perm.filterMap _ h)
  · intro hf
    apply computeStrategyHash_congr
    apply List.Perm.of_eq
    unfold normalizeConfig
    rw [List.filterMap_map]
    apply List.filterMap_congr
    intro a ha
    have hlen : pyStrip (f a) = [] ↔ pyStrip a = [] := by
      constructor
      · intro h0
        have := hf a ha
        rw [h0] at this
        simpa [pyLower, eq_comm] using this.symm
      · intro h0
        have := hf a ha
        rw [h0] at this
        simpa [pyLower] using this
    by_cases h0 : pyStrip a = []
    · simp only [Function.comp, h0, hlen.mpr h0, if_pos, if_pos rfl]
    · rw [Function.comp_apply, if_neg (fun hc => h0 (hlen.mp hc)), if_neg h0,
        hf a ha]
  · intro he
    apply computeStrategyHash_congr
    apply List.Perm.of_eq
    unfold normalizeConfig
    rw [List.filterMap_cons_none]
    rw [if_pos he]

/-- Witness for C4: permuting `["a", "b"]` leaves the hash unchanged. -/
theorem C4_hash_invariance_witness :
    computeStrategyHash [['a'], ['b']] = computeStrategyHash [['b'], ['a']] :=
  (C4_hash_invariance [['a'], ['b']] [['b'], ['a']] id []).1 (by decide)

/-- C2: vote accounting of `upsert_strategy`. When the key triple exists,
a successful report increments `success_count` by one, folds the latency
into the running mean, advances `last_confirmed` to `now`, recomputes the
status, and changes nothing else; a failed report increments `fail_count`
by one, recomputes the status, and leaves `success_count`,
`avg_latency_ms` and `last_confirmed` unchanged. When the triple is
unseen, a fresh row is created with counts `(1, 0)` (success, with
`last_confirmed = now`) or `(0, 1)` (failure, with no `last_confirmed`). -/
theorem C2_upsert_vote_accounting (st : Store) (provider service : String)
    (args : List PyStr) (latency : ℚ) (fingerprint client_version : String)
    (now : ℤ) :
    (∀ row,
      st.strategies.find? (keyMatch provider service (computeStrategyHash args))
        = some row →
      ((upsertStrategy st provider service args true latency fingerprint
          client_version now).1.strategies.find?
          (keyMatch provider service (computeStrategyHash args)) =
        some { row with
          success_count := row.success_count + 1
          avg_latency_ms :=
            (row.avg_latency_ms * (row.success_count : ℚ) + latency)
              / ((row.success_count : ℚ) + 1)
          last_confirmed := some now
          status := computeStatus (row.success_count + 1) row.fail_count }) ∧
      ((upsertStrategy st provider service args false latency fingerprint
          client_version now).1.strategies.find?
          (keyMatch provider service (computeStrategyHash args)) =
        some { row with
          fail_count := row.fail_count + 1
          status := computeStatus row.success_count (row.fail_count + 1) })) ∧
    (st.strategies.find? (keyMatch provider service (computeStrategyHash args))
        = none →
      ((upsertStrategy st provider service args true latency fingerprint
          client_version now).1.strategies.find?
          (keyMatch provider service (computeStrategyHash args)) =
        some { id := st.nextId
               provider_id := provider
               service_id := service
               strategy_hash := computeStrategyHash args
               zapret_args := args
               success_count := 1
               fail_count := 0
               avg_latency_ms := latency
               status := .unconfirmed
               first_reported := now
               last_confirmed := some now }) ∧
      ((upsertStrategy st provider service args false latency fingerprint
          client_version now).1.strategies.find?
          (keyMatch provider service (computeStrategyHash args)) =
        some { id := st.nextId
               provider_id := provider
               service_id := service
               strategy_hash := computeStrategyHash args
               zapret_args := args
               success_count := 0
               fail_count := 1
               avg_latency_ms := 0
               status := .unconfirmed
               first_reported := now
               last_confirmed := none })) := by
  constructor
  · intro row h
    constructor
    · have hrow' : keyMatch provider service (computeStrategyHash args)
          { row with
            success_count := row.success_count + 1
            avg_latency_ms :=
              (row.avg_latency_ms * (row.success_count : ℚ) + latency)
                / ((row.success_count : ℚ) + 1)
            last_confirmed := some now } = true := by
        simpa [keyMatch] using List.find?_some h
      simp only [upsertStrategy, stepUpsert, h, stepSetStatus, stepInsertReport,
        if_true, Bool.false_eq_true, if_false]
      rw [find?_map_congr (fun r => by
        by_cases hid : (r.id == row.id) <;> simp [hid, keyMatch])]
      rw [find?_update h hrow']
      simp
    · have hrow' : keyMatch provider service (computeStrategyHash args)
          { row with fail_count := row.fail_count + 1 } = true := by
        simpa [keyMatch] using List.find?_some h
      simp only [upsertStrategy, stepUpsert, h, stepSetStatus, stepInsertReport,
        if_true, Bool.false_eq_true, if_false]
      rw [find?_map_congr (fun r => by
        by_cases hid : (r.id == row.id) <;> simp [hid, keyMatch])]
      rw [find?_update h hrow']
      simp
  · intro h
    have hu : computeStatus 1 0 = .unconfirmed :=
      (computeStatus_cases 1 0).1 (by norm_num)
    have hu' : computeStatus 0 1 = .unconfirmed :=
      (computeStatus_cases 0 1).1 (by norm_num)
    constructor
    · simp only [upsertStrategy, stepUpsert, h, stepSetStatus, stepInsertReport,
        if_true, Bool.false_eq_true, if_false]
      rw [find?_map_congr (fun r => by
        by_cases hid : (r.id == st.nextId) <;> simp [hid, keyMatch])]
      rw [List.find?_append, h]
      simp [keyMatch, hu]
    · simp only [upsertStrategy, stepUpsert, h, stepSetStatus, stepInsertReport,
        if_true, Bool.false_eq_true, if_false]
      rw [find?_map_congr (fun r => by
        by_cases hid : (r.id == st.nextId) <;> simp [hid, keyMatch])]
      rw [List.find?_append, h]
      simp [keyMatch, hu']

/-- Witness for C2: recording a first successful report against the empty
store creates the fresh `(1, 0)` row. -/
theorem C2_upsert_vote_accounting_witness :
    (upsertStrategy ⟨[], [], 1⟩ "p" "s" [['a']] true 100 "fp" "v" 0).1.strategies.find?
      (keyMatch "p" "s" (computeStrategyHash [['a']])) =
    some { id := 1
           provider_id := "p"
           service_id := "s"
           strategy_hash := computeStrategyHash [['a']]
           zapret_args := [['a']]
           success_count := 1
           fail_count := 0
           avg_latency_ms := 100
           status := .unconfirmed
           first_reported := 0
           last_confirmed := some 0 } :=
  ((C2_upsert_vote_accounting ⟨[], [], 1⟩ "p" "s" [['a']] 100 "fp" "v" 0).2 rfl).1

/-- C10: a strategy created by a failed first report is stored with no
`last_confirmed` timestamp and counts `(0, 1)`, and the sweeper's
age-based rule fixes every strategy whose `last_confirmed` is absent —
the SQL comparison `last_confirmed < NOW() - INTERVAL '7 days'` does not
hold for `NULL`, however old `first_reported` is. -/
theorem C10_failOnly_row_never_age_stale (st : Store)
    (provider service : String) (args : List PyStr) (latency : ℚ)
    (fingerprint client_version : String) (now : ℤ) :
    (st.strategies.find? (keyMatch provider service (computeStrategyHash args))
        = none →
      ∃ r, (upsertStrategy st provider service args false latency fingerprint
          client_version now).1.strategies.find?
          (keyMatch provider service (computeStrategyHash args)) = some r ∧
        r.last_confirmed = none ∧ r.success_count = 0 ∧ r.fail_count = 1) ∧
    (∀ r : Strategy, r.last_confirmed = none → markStale now r = r) := by
  constructor
  · intro h
    have hu' : computeStatus 0 1 = .unconfirmed :=
      (computeStatus_cases 0 1).1 (by norm_num)
    refine ⟨{ id := st.nextId
              provider_id := provider
              service_id := service
              strategy_hash := computeStrategyHash args
              zapret_args := args
              success_count := 0
              fail_count := 1
              avg_latency_ms := 0
              status := .unconfirmed
              first_reported := now
              last_confirmed := none }, ?_, rfl, rfl, rfl⟩
    simp only [upsertStrategy, stepUpsert, h, stepSetStatus, stepInsertReport,
      if_true, Bool.false_eq_true, if_false]
    rw [find?_map_congr (fun r => by
      by_cases hid : (r.id == st.nextId) <;> simp [hid, keyMatch])]
    rw [List.find?_append, h]
    simp [keyMatch, hu']
  · intro r hr
    unfold markStale
    rw [if_neg]
    simp [staleCond, hr]

/-- Witness for C10: the age rule leaves a fail-only row (no
`last_confirmed`, arbitrarily old `first_reported`) unchanged. -/
theorem C10_failOnly_row_never_age_stale_witness :
    markStale 0 ⟨1, "p", "s", [], [], 0, 3, 0, .unconfirmed, -999999999, none⟩
      = ⟨1, "p", "s", [], [], 0, 3, 0, .unconfirmed, -999999999, none⟩ :=
  (C10_failOnly_row_never_age_stale ⟨[], [], 1⟩ "p" "s" [['a']] 0 "fp" "v" 0).2
    _ rfl

/-- C9: the three statements of `upsert_strategy` commit or roll back as
one unit: if any statement fails the resulting store is exactly the
original one — no strategy row, no counter, no status, no latency average,
no report row is changed — and nothing is returned; if none fails the
composed effect of all three statements commits. -/
theorem C9_recordReport_atomic (st : Store) (provider service : String)
    (args : List PyStr) (success : Bool) (latency : ℚ)
    (fingerprint client_version : String) (now : ℤ)
    (failOne failTwo failThree : Bool) :
    ((failOne || failTwo || failThree) = true →
      recordReport st provider service args success latency fingerprint
        client_version now failOne failTwo failThree = (st, none)) ∧
    ((failOne || failTwo || failThree) = false →
      recordReport st provider service args success latency fingerprint
        client_version now failOne failTwo failThree =
        ((upsertStrategy st provider service args success latency fingerprint
            client_version now).1,
         some ((upsertStrategy st provider service args success latency
            fingerprint client_version now).2.1,
          (upsertStrategy st provider service args success latency fingerprint
            client_version now).2.2))) := by
  cases failOne <;> cases failTwo <;> cases failThree <;>
    simp [recordReport, recordReportTx, upsertStrategy]

/-- C7: the rate limiter allows a fingerprint iff strictly fewer than 10 of
its reports lie strictly within the trailing one-hour window: with 9 such
reports the next (10th) submission is allowed, with 10 the next (11th) is
rejected by `post_report` with HTTP 429, and a report whose timestamp is at
least one hour old is not counted toward the window. -/
theorem C7_rate_limit_window (st : Store) (provider service : String)
    (args : List PyStr) (success : Bool) (latency : ℚ)
    (fingerprint client_version : String) (now : ℤ) :
    (checkRateLimit st fingerprint now = true ↔
      (st.reports.filter fun r =>
        r.fingerprint == fingerprint && decide (now - 3600 < r.reported_at)).length
        < 10) ∧
    ((st.reports.filter fun r =>
        r.fingerprint == fingerprint && decide (now - 3600 < r.reported_at)).length
        = 9 → checkRateLimit st fingerprint now = true) ∧
    ((st.reports.filter fun r =>
        r.fingerprint == fingerprint && decide (now - 3600 < r.reported_at)).length
        = 10 → checkRateLimit st fingerprint now = false ∧
      postReport st provider service args success latency fingerprint
        client_version now = .error 429) ∧
    (∀ r ∈ st.reports, r.reported_at + 3600 ≤ now →
      r ∉ st.reports.filter fun x =>
        x.fingerprint == fingerprint && decide (now - 3600 < x.reported_at)) ∧
    (checkRateLimit st fingerprint now = true →
      postReport st provider service args success latency fingerprint
        client_version now = .ok (upsertStrategy st provider service args
          success latency fingerprint client_version now)) := by
  have hiff : checkRateLimit st fingerprint now = true ↔
      (st.reports.filter fun r =>
        r.fingerprint == fingerprint && decide (now - 3600 < r.reported_at)).length
        < 10 := by
    simp [checkRateLimit, MAX_REPORTS_PER_HOUR]
  refine ⟨hiff, ?_, ?_, ?_, ?_⟩
  · intro h9
    exact hiff.mpr (by omega)
  · intro h10
    have hfalse : checkRateLimit st fingerprint now = false := by
      rw [Bool.eq_false_iff]
      intro htrue
      have := hiff.mp htrue
      omega
    refine ⟨hfalse, ?_⟩
    unfold postReport
    rw [hfalse]
    rfl
  · intro r _ hold hmem
    have := (List.mem_filter.mp hmem).2
    simp only [Bool.and_eq_true, decide_eq_true_eq] at this
    omega
  · intro hok
    unfold postReport
    rw [hok]
    rfl

/-- Witness for C7: a single report exactly one hour old does not count,
and the empty-window fingerprint is allowed. -/
theorem C7_rate_limit_window_witness :
    (⟨1, "fp", true, 0, "v", 0⟩ : Report) ∉
      ((⟨[], [⟨1, "fp", true, 0, "v", 0⟩], 0⟩ : Store)).reports.filter
        (fun x => x.fingerprint == "fp" && decide ((3600 : ℤ) - 3600 < x.reported_at)) :=
  (C7_rate_limit_window ⟨[], [⟨1, "fp", true, 0, "v", 0⟩], 0⟩ "p" "s" [['a']]
    true 0 "fp" "v" 3600).2.2.2.1 _ (by simp) (by norm_num)

/-- After one sweep a row can no longer satisfy the age-based condition. -/
lemma sweep_staleCond_false (now : ℤ) (r : Strategy) :
    staleCond now (markDegraded (markStale now r)) = false := by
  by_cases hs : staleCond now r = true
  · have hst : markStale now r = { r with status := .stale } := by
      unfold markStale; rw [if_pos hs]
    rw [hst]
    have hd : degradedCond { r with status := Status.stale } = false := by
      simp [degradedCond]
    unfold markDegraded
    rw [hd]
    simp [staleCond]
  · have hs' := Bool.eq_false_iff.mpr hs
    have hst : markStale now r = r := by
      unfold markStale; rw [if_neg hs]
    rw [hst]
    by_cases hd : degradedCond r = true
    · have hdd : markDegraded r = { r with status := .degraded } := by
        unfold markDegraded; rw [if_pos hd]
      rw [hdd]
      have hnst : (r.status == Status.stale) = false := by
        have := hd
        simp only [degradedCond, Bool.and_eq_true, Bool.not_eq_eq_eq_not,
          Bool.not_true] at this
        simpa using this.1.2
      have hlc : (match r.last_confirmed with
          | some t => decide (t < now - (STALE_DAYS : ℤ) * 86400)
          | none => false) = false := by
        simpa [staleCond, hnst] using hs'
      simp [staleCond, hlc]
    · have hdd : markDegraded r = r := by
        unfold markDegraded; rw [if_neg hd]
      rw [hdd]; exact hs'

/-- After one sweep a row can no longer satisfy the rate-based condition. -/
lemma sweep_degradedCond_false (now : ℤ) (r : Strategy) :
    degradedCond (markDegraded (markStale now r)) = false := by
  by_cases hs : staleCond now r = true
  · have hst : markStale now r = { r with status := .stale } := by
      unfold markStale; rw [if_pos hs]
    rw [hst]
    have hd : degradedCond { r with status := Status.stale } = false := by
      simp [degradedCond]
    unfold markDegraded
    rw [hd]
    exact hd
  · have hst : markStale now r = r := by
      unfold markStale; rw [if_neg hs]
    rw [hst]
    by_cases hd : degradedCond r = true
    · have hdd : markDegraded r = { r with status := .degraded } := by
        unfold markDegraded; rw [if_pos hd]
      rw [hdd]
      simp [degradedCond]
    · have hdd : markDegraded r = r := by
        unfold markDegraded; rw [if_neg hd]
      rw [hdd]
      exact Bool.eq_false_iff.mpr hd

/-- C8: the maintenance sweep is idempotent — a second run at the same
time with no intervening reports changes nothing and reports zero affected
rows for both rules — and a strategy that is already `stale` is left
exactly as it is by the per-row sweep transformation (it is never demoted
to `degraded`). -/
theorem C8_cleanup_idempotent (st : Store) (now : ℤ) :
    runCleanup (runCleanup st now).1 now = ((runCleanup st now).1, 0, 0) ∧
    (∀ r : Strategy, r.status = .stale → markDegraded (markStale now r) = r) := by
  constructor
  · set st1 := (runCleanup st now).1 with hst1
    have hS : st1.strategies
        = st.strategies.map fun r => markDegraded (markStale now r) := by
      rw [hst1]
      simp [runCleanup, List.map_map, Function.comp]
    have h0 : ∀ r ∈ st1.strategies, ¬ staleCond now r = true := by
      intro r hr
      rw [hS] at hr
      obtain ⟨x, _, rfl⟩ := List.mem_map.mp hr
      simp [sweep_staleCond_false now x]
    have h1 : st1.strategies.map (markStale now) = st1.strategies := by
      conv_rhs => rw [← List.map_id st1.strategies]
      apply List.map_congr_left
      intro r hr
      unfold markStale
      rw [if_neg (h0 r hr)]
      rfl
    have h0d : ∀ r ∈ st1.strategies, ¬ degradedCond r = true := by
      intro r hr
      rw [hS] at hr
      obtain ⟨x, _, rfl⟩ := List.mem_map.mp hr
      simp [sweep_degradedCond_false now x]
    have h2 : st1.strategies.map markDegraded = st1.strategies := by
      conv_rhs => rw [← List.map_id st1.strategies]
      apply List.map_congr_left
      intro r hr
      unfold markDegraded
      rw [if_neg (h0d r hr)]
      rfl
    show runCleanup st1 now = (st1, 0, 0)
    simp only [runCleanup]
    rw [h1, h2, List.countP_eq_zero.mpr h0, List.countP_eq_zero.mpr h0d]
  · intro r hr
    have hs : staleCond now r = false := by simp [staleCond, hr]
    have hst : markStale now r = r := by
      unfold markStale; rw [hs]; rfl
    rw [hst]
    have hd : degradedCond r = false := by simp [degradedCond, hr]
    unfold markDegraded
    rw [hd]
    rfl

/-- Witness for C8: a stale strategy passes through the sweep unchanged. -/
theorem C8_cleanup_idempotent_witness :
    markDegraded (markStale 0 ⟨1, "p", "s", [], [], 0, 5, 0, .stale, 0, none⟩)
      = ⟨1, "p", "s", [], [], 0, 5, 0, .stale, 0, none⟩ :=
  (C8_cleanup_idempotent ⟨[], [], 0⟩ 0).2 _ rfl

/-- Witness for C9: a failure of the first statement leaves the store
untouched. -/
theorem C9_recordReport_atomic_witness :
    recordReport ⟨[], [], 1⟩ "p" "s" [['a']] true 0 "fp" "v" 0 true false false
      = (⟨[], [], 1⟩, none) :=
  (C9_recordReport_atomic ⟨[], [], 1⟩ "p" "s" [['a']] true 0 "fp" "v" 0
    true false false).1 rfl

lemma lcGE_total : ∀ (x y : Option ℤ), (lcGE x y || lcGE y x) = true
  | none, _ => by simp [lcGE]
  | some _, none => by simp [lcGE]
  | some a, some b => by
    simp only [lcGE, Bool.or_eq_true, decide_eq_true_eq]
    omega

lemma lcGE_trans :
    ∀ (x y z : Option ℤ), lcGE x y = true → lcGE y z = true → lcGE x z = true
  | none, _, _, _, _ => rfl
  | some _, none, _, h1, _ => by simp [lcGE] at h1
  | some _, some _, none, _, h2 => by simp [lcGE] at h2
  | some a, some b, some c, h1, h2 => by
    simp only [lcGE, decide_eq_true_eq] at h1 h2 ⊢
    omega

/-- The comparison used by the `ORDER BY` clause, as a proposition. -/
lemma rankLe_iff (a b : Strategy) :
    rankLe a b = true ↔
      (successRate b < successRate a ∨
        (successRate a = successRate b ∧
          lcGE a.last_confirmed b.last_confirmed = true)) := by
  unfold rankLe
  rcases lt_trichotomy (successRate a) (successRate b) with h | h | h
  · rw [if_neg (lt_asymm h), if_pos h]
    simp [lt_asymm h, h.ne]
  · rw [if_neg (by rw [h]; exact lt_irrefl _),
      if_neg (by rw [h]; exact lt_irrefl _)]
    simp [h]
  · rw [if_pos h]
    simp [h]

lemma rankLe_trans (a b c : Strategy) (h1 : rankLe a b = true)
    (h2 : rankLe b c = true) : rankLe a c = true := by
  rw [rankLe_iff] at h1 h2 ⊢
  rcases h1 with h1 | ⟨h1e, h1l⟩
  · rcases h2 with h2 | ⟨h2e, _⟩
    · exact Or.inl (lt_trans h2 h1)
    · exact Or.inl (h2e ▸ h1)
  · rcases h2 with h2 | ⟨h2e, h2l⟩
    · exact Or.inl (by rw [h1e]; exact h2)
    · exact Or.inr ⟨h1e.trans h2e, lcGE_trans _ _ _ h1l h2l⟩

lemma rankLe_total (a b : Strategy) : (rankLe a b || rankLe b a) = true := by
  rcases lt_trichotomy (successRate a) (successRate b) with h | h | h
  · have e2 : rankLe b a = true := by
      unfold rankLe; rw [if_pos h]
    rw [e2, Bool.or_true]
  · have e1 : rankLe a b = lcGE a.last_confirmed b.last_confirmed := by
      unfold rankLe
      rw [if_neg (by rw [h]; exact lt_irrefl _),
        if_neg (by rw [h]; exact lt_irrefl _)]
    have e2 : rankLe b a = lcGE b.last_confirmed a.last_confirmed := by
      unfold rankLe
      rw [if_neg (by rw [h]; exact lt_irrefl _),
        if_neg (by rw [h]; exact lt_irrefl _)]
    rw [e1, e2]
    exact lcGE_total _ _
  · have e2 : rankLe a b = true := by
      unfold rankLe; rw [if_pos h]
    rw [e2, Bool.true_or]

lemma sorted_mergeSort_rankLe (l : List Strategy) :
    (l.mergeSort rankLe).Pairwise (fun a b => rankLe a b = true) :=
  List.sorted_mergeSort (fun a b c hab hbc => rankLe_trans a b c hab hbc)
    (fun a b => rankLe_total a b) l

/-- Any member of the primary query result is a stored row of the exact
provider and service with status verified or unconfirmed. -/
lemma primary_mem_props {st : Store} {provider service : String}
    {x : Strategy} (hx : x ∈ primaryStrategies st provider service) :
    x ∈ st.strategies ∧ x.provider_id = provider ∧ x.service_id = service ∧
      (x.status = .verified ∨ x.status = .unconfirmed) := by
  unfold primaryStrategies at hx
  have hx1 := List.mem_mergeSort.mp (List.take_subset _ _ hx)
  obtain ⟨hmem, hp⟩ := List.mem_filter.mp hx1
  simp only [Bool.and_eq_true, beq_iff_eq, statusOk, Bool.or_eq_true] at hp
  exact ⟨hmem, hp.1.1, hp.1.2, hp.2⟩

lemma primary_pairwise (st : Store) (provider service : String) :
    (primaryStrategies st provider service).Pairwise
      (fun a b => rankLe a b = true) :=
  (sorted_mergeSort_rankLe _).sublist (List.take_sublist _ _)

/-- Any member of the fallback query result is a stored row of the same
service, another provider, verified, with rate at least 0.70. -/
lemma fallback_mem_props {st : Store} {provider service : String} {n : ℕ}
    {x : Strategy} (hx : x ∈ fallbackRows st provider service n) :
    x ∈ st.strategies ∧ x.service_id = service ∧ x.provider_id ≠ provider ∧
      x.status = .verified ∧ (70 : ℚ) / 100 ≤ successRate x := by
  unfold fallbackRows at hx
  have hx1 := List.mem_mergeSort.mp (List.take_subset _ _ hx)
  obtain ⟨hmem, hp⟩ := List.mem_filter.mp hx1
  simp only [Bool.and_eq_true, beq_iff_eq, bne_iff_ne, ne_eq,
    decide_eq_true_eq, FALLBACK_SUCCESS_RATE] at hp
  exact ⟨hmem, hp.1.1.1, hp.1.1.2, hp.1.2, hp.2⟩

lemma fallback_pairwise (st : Store) (provider service : String) (n : ℕ) :
    (fallbackRows st provider service n).Pairwise
      (fun a b => rankLe a b = true) :=
  (sorted_mergeSort_rankLe _).sublist (List.take_sublist _ _)

lemma ids_nodup_primary (st : Store) (provider service : String)
    (hnd : (st.strategies.map (·.id)).Nodup) :
    ((primaryStrategies st provider service).map (·.id)).Nodup := by
  unfold primaryStrategies
  apply List.Nodup.sublist (List.Sublist.map _ (List.take_sublist _ _))
  exact (((List.mergeSort_perm _ rankLe).map (·.id)).symm).nodup
    (List.Nodup.sublist (List.Sublist.map _ (List.filter_sublist _)) hnd)

lemma ids_nodup_fallback (st : Store) (provider service : String) (n : ℕ)
    (hnd : (st.strategies.map (·.id)).Nodup) :
    ((fallbackRows st provider service n).map (·.id)).Nodup := by
  unfold fallbackRows
  apply List.Nodup.sublist (List.Sublist.map _ (List.take_sublist _ _))
  exact (((List.mergeSort_perm _ rankLe).map (·.id)).symm).nodup
    (List.Nodup.sublist (List.Sublist.map _ (List.filter_sublist _)) hnd)

/-- C5: the primary result of `get_strategies` contains only rows of the
exact provider and service whose status is verified or unconfirmed (never
degraded or stale), is ordered by success rate descending with ties broken
by `last_confirmed` descending (on the nullable column, `NULL` ranking
first), and has at most 5 entries. -/
theorem C5_primary_ranking (st : Store) (provider service : String) :
    (∀ x ∈ primaryStrategies st provider service,
      x ∈ st.strategies ∧ x.provider_id = provider ∧ x.service_id = service ∧
      (x.status = .verified ∨ x.status = .unconfirmed) ∧
      x.status ≠ .degraded ∧ x.status ≠ .stale) ∧
    (primaryStrategies st provider service).Pairwise (fun a b =>
      successRate b < successRate a ∨
      (successRate a = successRate b ∧
        lcGE a.last_confirmed b.last_confirmed = true)) ∧
    (primaryStrategies st provider service).length ≤ 5 := by
  refine ⟨?_, ?_, ?_⟩
  · intro x hx
    obtain ⟨hmem, hprov, hserv, hstat⟩ := primary_mem_props hx
    exact ⟨hmem, hprov, hserv, hstat,
      by rcases hstat with h | h <;> simp [h],
      by rcases hstat with h | h <;> simp [h]⟩
  · exact (primary_pairwise st provider service).imp
      (fun hab => (rankLe_iff _ _).mp hab)
  · exact List.length_take_le _ _

/-- Witness for C5 on a one-row store. -/
theorem C5_primary_ranking_witness :
    (primaryStrategies
        ⟨[⟨1, "p", "s", [], [], 3, 1, 10, .verified, 0, some 5⟩], [], 2⟩
        "p" "s").length ≤ 5 :=
  (C5_primary_ranking
    ⟨[⟨1, "p", "s", [], [], 3, 1, 10, .verified, 0, some 5⟩], [], 2⟩ "p" "s").2.2

/-- C6: the full `get_strategies` result never exceeds 5 entries and never
contains a degraded or stale strategy; when the primary result has fewer
than 3 entries it is extended (in order) by fallback rows for the same
service from other providers, all verified with success rate at least
0.70, none repeating an id already present; and — for a store with unique
row ids — no id appears twice in the returned list. -/
theorem C6_fallback_extension (st : Store) (provider service : String)
    (hnd : (st.strategies.map (·.id)).Nodup) :
    (getStrategies st provider service).length ≤ 5 ∧
    (∀ x ∈ getStrategies st provider service,
      x.status ≠ .degraded ∧ x.status ≠ .stale) ∧
    ((primaryStrategies st provider service).length < 3 →
      ∃ extra, getStrategies st provider service =
          primaryStrategies st provider service ++ extra ∧
        (∀ x ∈ extra, x.service_id = service ∧ x.provider_id ≠ provider ∧
          x.status = .verified ∧ (70 : ℚ) / 100 ≤ successRate x ∧
          x.id ∉ (primaryStrategies st provider service).map (·.id)) ∧
        extra.Pairwise (fun a b =>
          successRate b < successRate a ∨
          (successRate a = successRate b ∧
            lcGE a.last_confirmed b.last_confirmed = true))) ∧
    ((getStrategies st provider service).map (·.id)).Nodup := by
  have hget : getStrategies st provider service =
      (if (primaryStrategies st provider service).length
          < MIN_PROVIDER_STRATEGIES then
        primaryStrategies st provider service ++
          ((fallbackRows st provider service
              (MAX_STRATEGIES_RESPONSE
                - (primaryStrategies st provider service).length)).filter
            (fun r =>
              !(((primaryStrategies st provider service).map (·.id)).contains
                r.id)))
      else primaryStrategies st provider service).take
        MAX_STRATEGIES_RESPONSE := rfl
  have hElen : ((fallbackRows st provider service
      (MAX_STRATEGIES_RESPONSE
        - (primaryStrategies st provider service).length)).filter
      (fun r =>
        !(((primaryStrategies st provider service).map (·.id)).contains
          r.id))).length
      ≤ MAX_STRATEGIES_RESPONSE
        - (primaryStrategies st provider service).length :=
    le_trans (List.length_filter_le _ _) (List.length_take_le _ _)
  refine ⟨?_, ?_, ?_, ?_⟩
  · rw [hget]
    exact List.length_take_le _ _
  · intro x hx
    rw [hget] at hx
    have hx' := List.take_subset _ _ hx
    by_cases hlt : (primaryStrategies st provider service).length
        < MIN_PROVIDER_STRATEGIES
    · rw [if_pos hlt] at hx'
      rcases List.mem_append.mp hx' with hm | hm
      · obtain ⟨_, _, _, hstat⟩ := primary_mem_props hm
        rcases hstat with h | h <;> exact ⟨by simp [h], by simp [h]⟩
      · obtain ⟨_, _, _, hv, _⟩ := fallback_mem_props (List.mem_filter.mp hm).1
        exact ⟨by simp [hv], by simp [hv]⟩
    · rw [if_neg hlt] at hx'
      obtain ⟨_, _, _, hstat⟩ := primary_mem_props hx'
      rcases hstat with h | h <;> exact ⟨by simp [h], by simp [h]⟩
  · intro hlt
    have hlt' : (primaryStrategies st provider service).length
        < MIN_PROVIDER_STRATEGIES := hlt
    refine ⟨(fallbackRows st provider service
        (MAX_STRATEGIES_RESPONSE
          - (primaryStrategies st provider service).length)).filter
      (fun r =>
        !(((primaryStrategies st provider service).map (·.id)).contains
          r.id)), ?_, ?_, ?_⟩
    · rw [hget, if_pos hlt']
      apply List.take_of_length_le
      rw [List.length_append]
      have h3 := hlt'
      simp only [MIN_PROVIDER_STRATEGIES] at h3
      simp only [MAX_STRATEGIES_RESPONSE] at hElen ⊢
      omega
    · intro x hx
      obtain ⟨hf, hcond⟩ := List.mem_filter.mp hx
      obtain ⟨_, hs, hp, hv, hr⟩ := fallback_mem_props hf
      refine ⟨hs, hp, hv, hr, ?_⟩
      simpa using hcond
    · exact (List.Pairwise.sublist (List.filter_sublist _)
        (fallback_pairwise st provider service _)).imp
        (fun hab => (rankLe_iff _ _).mp hab)
  · rw [hget]
    apply List.Nodup.sublist (List.Sublist.map _ (List.take_sublist _ _))
    by_cases hlt : (primaryStrategies st provider service).length
        < MIN_PROVIDER_STRATEGIES
    · rw [if_pos hlt, List.map_append]
      refine List.Nodup.append (ids_nodup_primary st provider service hnd)
        (List.Nodup.sublist
          (List.Sublist.map _ (List.filter_sublist _))
          (ids_nodup_fallback st provider service _ hnd)) ?_
      intro a ha hb
      obtain ⟨x, hxE, rfl⟩ := List.mem_map.mp hb
      obtain ⟨_, hcond⟩ := List.mem_filter.mp hxE
      exact absurd ha (by simpa using hcond)
    · rw [if_neg hlt]
      exact ids_nodup_primary st provider service hnd

/-- Witness for C6 on a one-row store with unique ids. -/
theorem C6_fallback_extension_witness :
    ((getStrategies
        ⟨[⟨1, "p", "s", [], [], 3, 1, 10, .verified, 0, some 5⟩], [], 2⟩
        "p" "s").map (·.id)).Nodup :=
  (C6_fallback_extension
    ⟨[⟨1, "p", "s", [], [], 3, 1, 10, .verified, 0, some 5⟩], [], 2⟩ "p" "s"
    (by simp)).2.2.2

end Crowd
